import Mathlib

set_option maxHeartbeats 1000000

/-!
Shallow embedding of the pagination-window and identifier-resolution core of
the TMDB "Currently Airing TV" Stremio add-on (src/index.js, all revisions).

JavaScript numbers that the code uses as non-negative integers (page numbers,
skip offsets, item counts) are modelled as `Nat`.  JavaScript values that may
be `undefined`/`null` are modelled as `Option`; the JS truthiness coercions
`x || d` (where `undefined`, `null`, `0` and the empty string are falsy) are
modelled by the explicit `jsOr...` helpers below.  A fallible upstream fetch
is modelled as `Except Unit` valued.
-/

/-- One fetched page from a TMDB list endpoint, as consumed by the windowing
loop: the reported page number, the item list (`results`, possibly absent in a
malformed response) and the reported total page count (possibly absent). -/
structure PageResult (α : Type) where
  page : Nat
  results : Option (List α)
  total_pages : Option Nat

/-- JavaScript `x || d` for an optional number: `undefined` and `0` are falsy,
so both fall back to the default.  This is the coercion used by the loop guard
`p >= (data.total_pages || p)` in src/index.js. -/
def jsOrNat : Option Nat → Nat → Nat
  | none, d => d
  | some 0, d => d
  | some (n + 1), _ => n + 1

/-- JavaScript `pg.results || []` from the flattening step in src/index.js. -/
def jsResults {α : Type} (pg : PageResult α) : List α :=
  pg.results.getD []

/-- The page-fetch loop of the catalog handler with try/catch around the fetch
(src/index.js lines 77-84): starting at page `p` with `fuel` iterations left,
fetch the page; on a thrown error stop silently; otherwise push the page and
stop once `p >= (data.total_pages || p)`. -/
def fetchPagesAux {α : Type} (fetch : Nat → Except Unit (PageResult α)) :
    Nat → Nat → List (PageResult α)
  | _, 0 => []
  | p, fuel + 1 =>
    match fetch p with
    | .error _ => []
    | .ok data =>
      if jsOrNat data.total_pages p ≤ p then [data]
      else data :: fetchPagesAux fetch (p + 1) fuel

/-- Pages pushed by the loop `for (let p = startPage; p <= endPage; p++)`. -/
def fetchPages {α : Type} (fetch : Nat → Except Unit (PageResult α))
    (startPage endPage : Nat) : List (PageResult α) :=
  fetchPagesAux fetch startPage (endPage + 1 - startPage)

/-- The page numbers the loop actually requests from the upstream, including a
final request that throws (the request was issued even though its result is
discarded). -/
def requestedPagesAux {α : Type} (fetch : Nat → Except Unit (PageResult α)) :
    Nat → Nat → List Nat
  | _, 0 => []
  | p, fuel + 1 =>
    match fetch p with
    | .error _ => [p]
    | .ok data =>
      if jsOrNat data.total_pages p ≤ p then [p]
      else p :: requestedPagesAux fetch (p + 1) fuel

/-- Page numbers requested over the loop range `startPage .. endPage`. -/
def requestedPages {α : Type} (fetch : Nat → Except Unit (PageResult α))
    (startPage endPage : Nat) : List Nat :=
  requestedPagesAux fetch startPage (endPage + 1 - startPage)

/-- The windowing computation of the catalog handler (src/index.js lines
72-89), parametrised the way the spec presents it: `tmdbPerPage` becomes
`pageSize` and `maxReturn` becomes `limit` (the code instantiates them with 20
and 100).  `startPage = floor(skip / pageSize) + 1`,
`endPage = Math.ceil((skip + limit) / pageSize)` (on naturals,
`(skip + limit + pageSize - 1) / pageSize`), then the fetched pages are
flattened and `all.slice(startOffset, startOffset + limit)` is taken. -/
def computeWindow {α : Type} (fetch : Nat → Except Unit (PageResult α))
    (skip limit pageSize : Nat) : List α :=
  let startPage := skip / pageSize + 1
  let endIndexExclusive := skip + limit
  let endPage := (endIndexExclusive + pageSize - 1) / pageSize
  let pages := fetchPages fetch startPage endPage
  let all := pages.flatMap jsResults
  let startOffset := skip % pageSize
  (all.drop startOffset).take limit

/-- The page-fetch loop of the revision without try/catch (src/index.js lines
286-291): a thrown fetch error propagates out of the loop, rejecting the
handler instead of returning a result. -/
def fetchPagesStrictAux {α : Type} (fetch : Nat → Except Unit (PageResult α)) :
    Nat → Nat → Except Unit (List (PageResult α))
  | _, 0 => .ok []
  | p, fuel + 1 =>
    match fetch p with
    | .error e => .error e
    | .ok data =>
      if jsOrNat data.total_pages p ≤ p then .ok [data]
      else (fetchPagesStrictAux fetch (p + 1) fuel).map (data :: ·)

/-- Strict-loop variant of `fetchPages`. -/
def fetchPagesStrict {α : Type} (fetch : Nat → Except Unit (PageResult α))
    (startPage endPage : Nat) : Except Unit (List (PageResult α)) :=
  fetchPagesStrictAux fetch startPage (endPage + 1 - startPage)

/-- Windowing as performed by the revision without try/catch: a failed page
fetch makes the whole computation fail. -/
def computeWindowStrict {α : Type} (fetch : Nat → Except Unit (PageResult α))
    (skip limit pageSize : Nat) : Except Unit (List α) :=
  let startPage := skip / pageSize + 1
  let endIndexExclusive := skip + limit
  let endPage := (endIndexExclusive + pageSize - 1) / pageSize
  (fetchPagesStrict fetch startPage endPage).map (fun pages =>
    let all := pages.flatMap jsResults
    let startOffset := skip % pageSize
    (all.drop startOffset).take limit)

/-- Replaces a throwing fetch by one that reports the failing page as an empty
final page (`total_pages = p`, no results).  Used to state in what sense the
try/catch revision treats a fetch failure as "no more pages". -/
def recoverFetch {α : Type} (fetch : Nat → Except Unit (PageResult α)) :
    Nat → Except Unit (PageResult α) :=
  fun p =>
    match fetch p with
    | .ok d => .ok d
    | .error _ => .ok ⟨p, some [], some p⟩

/-- Page `p` (1-based) of the list `L` when the upstream serves it in pages of
`ps` items (the last page possibly partial). -/
def pageOf {α : Type} (L : List α) (ps p : Nat) : List α :=
  (L.drop ((p - 1) * ps)).take ps

/-- Total page count reported by such an upstream: `ceil(|L| / ps)`. -/
def totalPagesOf {α : Type} (L : List α) (ps : Nat) : Nat :=
  (L.length + ps - 1) / ps

/-- A well-behaved upstream serving the fixed list `L` in pages of `ps`
items: every fetch succeeds and reports the same total page count. -/
def fetchOf {α : Type} (L : List α) (ps : Nat) :
    Nat → Except Unit (PageResult α) :=
  fun p => .ok ⟨p, some (pageOf L ps p), some (totalPagesOf L ps)⟩

/-- Ceiling division written the way the spec phrases it:
`floor(a / b)`, plus one when the division is not exact. -/
def specCeilDiv (a b : Nat) : Nat :=
  a / b + (if a % b = 0 then 0 else 1)

/-- Modelled from the spec (section 4.1): the `computeWindow` algorithm as the
specification states it, with `endPage = ceil((skip + limit) / pageSize)` and
the returned value being the sub-sequence `[localOffset, localOffset + limit)`
of the concatenation, clipped to available length. -/
def computeWindowSpec {α : Type} (fetch : Nat → Except Unit (PageResult α))
    (skip limit pageSize : Nat) : List α :=
  let startPage := skip / pageSize + 1
  let endPage := specCeilDiv (skip + limit) pageSize
  let concatenation := (fetchPages fetch startPage endPage).flatMap jsResults
  let localOffset := skip % pageSize
  (concatenation.take (localOffset + limit)).drop localOffset

/-- Decimal digit characters of a natural number, most significant first;
models the JavaScript number-to-string coercion in template literals such as
the backtick string tmdb:tv:(id) in src/index.js. -/
def natDec (n : Nat) : List Char :=
  if h : n < 10 then [Nat.digitChar n]
  else natDec (n / 10) ++ [Nat.digitChar (n % 10)]
termination_by n
decreasing_by
  exact Nat.div_lt_self (by omega) (by omega)

/-- String form of the decimal numeral. -/
def natStr (n : Nat) : String :=
  String.mk (natDec n)

/-- Numeric value of a decimal digit character. -/
def digitVal (c : Char) : Nat :=
  c.toNat - 48

/-- Value of a decimal digit string, most significant digit first. -/
def digitsToNat (l : List Char) : Nat :=
  l.foldl (fun a c => a * 10 + digitVal c) 0

/-- Is this a non-empty all-digit character list (the language of the regex
fragment matching one or more digits)? -/
def digitStr (l : List Char) : Bool :=
  !l.isEmpty && l.all Char.isDigit

/-- Models JavaScript `Number(s)` on the decimal strings the handlers receive;
non-numeric strings (JS `NaN`) are outside the modelled input space and map
to 0. -/
def jsStringToNat (s : String) : Nat :=
  if digitStr s.data then digitsToNat s.data else 0

/-- The synthetic identifier produced in src/index.js:
the template literal tmdb:(type):(id). -/
def synthId (ty : String) (n : Nat) : String :=
  "tmdb:" ++ ty ++ ":" ++ natStr n

/-- Case-insensitive literal matching, the building block of the handlers'
anchored regexes (which carry the `i` flag): consume the pattern (given in
lower case) from the front of the input, comparing each input character
lowered, and return the rest of the input. -/
def dropLitCI : List Char → List Char → Option (List Char)
  | [], s => some s
  | _ :: _, [] => none
  | p :: ps, c :: cs => if c.toLower = p then dropLitCI ps cs else none

/-- The meta handler's id regex matching tmdb ids: anchored, case-insensitive,
group 1 is movie-or-tv and group 2 one or more digits (src/index.js lines
804-809).  Captures keep the original case, as JS captures do. -/
def matchTmdbMeta (s : String) : Option (String × String) :=
  match dropLitCI "tmdb:".data s.data with
  | none => none
  | some r =>
    match dropLitCI "movie:".data r with
    | some rest =>
      if digitStr rest then some (String.mk (r.take 5), String.mk rest) else none
    | none =>
      match dropLitCI "tv:".data r with
      | some rest =>
        if digitStr rest then some (String.mk (r.take 2), String.mk rest) else none
      | none => none

/-- The meta handler's use of the match: the ternary
m[1] === movie ? movie : tv, and the numeric value of the captured digits. -/
def decodeTmdbMeta (s : String) : Option (String × Nat) :=
  match matchTmdbMeta s with
  | some g => some ((if g.1 = "movie" then "movie" else "tv"), digitsToNat g.2.data)
  | none => none

/-- Second capture group of the recs id regexes: an imdb reference or a tmdb
reference, each followed by one or more digits up to the anchor. -/
def recsRefOk (l : List Char) : Bool :=
  match dropLitCI "tt:tt".data l with
  | some ds => digitStr ds
  | none =>
    match dropLitCI "tmdb-".data l with
    | some ds => digitStr ds
    | none => false

/-- The meta handler's recs id regex: anchored, case-insensitive, group 1 is
movie-or-series, group 2 a recs reference. -/
def matchRecsMeta (s : String) : Option (String × String) :=
  match dropLitCI "recs:".data s.data with
  | none => none
  | some r =>
    match dropLitCI "movie:".data r with
    | some rest =>
      if recsRefOk rest then some (String.mk (r.take 5), String.mk rest) else none
    | none =>
      match dropLitCI "series:".data r with
      | some rest =>
        if recsRefOk rest then some (String.mk (r.take 6), String.mk rest) else none
      | none => none

/-- The stream handler's series recs regex (kind fixed to series). -/
def matchRecsSeriesStream (s : String) : Option String :=
  match dropLitCI "recs:series:".data s.data with
  | some rest => if recsRefOk rest then some (String.mk rest) else none
  | none => none

/-- The stream handler's movie recs regex (kind fixed to movie). -/
def matchRecsMovieStream (s : String) : Option String :=
  match dropLitCI "recs:movie:".data s.data with
  | some rest => if recsRefOk rest then some (String.mk rest) else none
  | none => none

/-- The optional episode suffix of the stream id regexes: either nothing, or a
colon, digits, colon, digits, up to the anchor. -/
def epTailOk : List Char → Bool
  | [] => true
  | ':' :: rest =>
    match rest.span Char.isDigit with
    | (d1, ':' :: rest2) =>
      match rest2.span Char.isDigit with
      | (d2, r2) => !d1.isEmpty && !d2.isEmpty && r2.isEmpty
    | _ => false
  | _ => false

/-- The stream handler's imdb id regex: group 1 is the letters tt followed by
digits, optionally followed by an episode suffix (src/index.js line 924). -/
def matchImdbStream (s : String) : Option String :=
  match dropLitCI "tt".data s.data with
  | none => none
  | some r =>
    match r.span Char.isDigit with
    | (ds, rest) =>
      if !ds.isEmpty && epTailOk rest
      then some (String.mk (s.data.take 2 ++ ds)) else none

/-- The stream handler's tmdb id regex: like the meta one but allowing an
optional episode suffix (src/index.js line 935). -/
def matchTmdbStream (s : String) : Option (String × String) :=
  match dropLitCI "tmdb:".data s.data with
  | none => none
  | some r =>
    match dropLitCI "movie:".data r with
    | some rest =>
      match rest.span Char.isDigit with
      | (ds, after) =>
        if !ds.isEmpty && epTailOk after
        then some (String.mk (r.take 5), String.mk ds) else none
    | none =>
      match dropLitCI "tv:".data r with
      | some rest =>
        match rest.span Char.isDigit with
        | (ds, after) =>
          if !ds.isEmpty && epTailOk after
          then some (String.mk (r.take 2), String.mk ds) else none
      | none => none

/-- One TV item from a TMDB list response, with the fields the catalog
handlers read. -/
structure TvItem where
  id : Nat
  name : Option String
  original_name : Option String
  poster_path : Option String
  overview : Option String
  first_air_date : Option String
deriving DecidableEq

/-- JavaScript `a || b` on two optional strings (empty string is falsy). -/
def jsOrOpt : Option String → Option String → Option String
  | some s, b => if s.isEmpty then b else some s
  | none, b => b

/-- JavaScript `a || d` with a string default. -/
def jsOrStrD : Option String → String → String
  | some s, d => if s.isEmpty then d else s
  | none, d => d

/-- JavaScript truthiness of an optional string. -/
def jsTruthyStr : Option String → Bool
  | none => false
  | some s => !s.isEmpty

/-- The tmdbImage helper: `p ? url + p : null`. -/
def tmdbImage (p : Option String) : Option String :=
  match p with
  | some s =>
    if s.isEmpty then none
    else some ("https://image.tmdb.org/t/p/w500" ++ s)
  | none => none

/-- The id chosen by toMetaPreviewFromTmdb (src/index.js line 32):
`imdbId ? imdbId : tmdb:tv:(id)`. -/
def metaPreviewId : Option String → Nat → String
  | some s, n => if s.isEmpty then synthId "tv" n else s
  | none, n => synthId "tv" n

/-- A Stremio catalog meta preview, with the fields toMetaPreviewFromTmdb
populates. -/
structure MetaPreview where
  id : String
  type : String
  name : Option String
  poster : Option String
  posterShape : String
  description : String
  releaseInfo : String
  year : Option Nat
deriving DecidableEq

/-- toMetaPreviewFromTmdb (src/index.js lines 30-43). -/
def toMetaPreviewFromTmdb (tv : TvItem) (imdbId : Option String) : MetaPreview :=
  { id := metaPreviewId imdbId tv.id
    type := "series"
    name := jsOrOpt tv.name tv.original_name
    poster := tmdbImage tv.poster_path
    posterShape := "regular"
    description := jsOrStrD tv.overview ""
    releaseInfo := (jsOrStrD tv.first_air_date "").take 4
    year :=
      if jsTruthyStr tv.first_air_date
      then some (jsStringToNat ((jsOrStrD tv.first_air_date "").take 4))
      else none }

/-- Outcome of the external-ids upstream lookup for one item: the request
threw, the response had a non-2xx status (the tmdb helper throws on it, caught
by the surrounding try), or a body arrived whose imdb_id field may be
absent. -/
inductive ExtIdsOutcome where
  | thrown : ExtIdsOutcome
  | badStatus : ExtIdsOutcome
  | okBody : Option String → ExtIdsOutcome
deriving DecidableEq

/-- JavaScript `x || null` on an optional string. -/
def jsOrStrNone : Option String → Option String
  | none => none
  | some s => if s.isEmpty then none else some s

/-- imdbForTv (src/index.js lines 986-987): the whole lookup is wrapped in
try/catch, a failure yields null, a body yields `imdb_id || null`. -/
def imdbForTv : ExtIdsOutcome → Option String
  | .thrown => none
  | .badStatus => none
  | .okBody j => jsOrStrNone j

/-- Modelled from the spec (section 3): a ResolvedIdentifier is either an
external canonical identifier or a synthetic identifier from the native type
and native id; exactly one of the two forms is populated. -/
inductive ResolvedIdentifier where
  | external : String → ResolvedIdentifier
  | synthetic : String → Nat → ResolvedIdentifier
deriving DecidableEq

/-- The identifier string a ResolvedIdentifier denotes in the response. -/
def renderResolved : ResolvedIdentifier → String
  | .external s => s
  | .synthetic ty n => synthId ty n

/-- Modelled from the spec (section 4.2): resolvePublicId for a TV item,
realised in the source as imdbForTv followed by the id choice of
toMetaPreviewFromTmdb. -/
def resolvePublicId (o : ExtIdsOutcome) (tvId : Nat) : ResolvedIdentifier :=
  match imdbForTv o with
  | some s => .external s
  | none => .synthetic "tv" tvId

/-- One entry of a find-by-external-id result list. -/
structure FindItem where
  id : Nat
deriving DecidableEq

/-- Body of a TMDB find-by-external-id response: the two result lists the
code consults (either may be absent). -/
structure FindResult where
  movie_results : Option (List FindItem)
  tv_results : Option (List FindItem)

/-- JavaScript `xs?.[0]` on an optional list. -/
def jsHead (o : Option (List FindItem)) : Option FindItem :=
  o.bind List.head?

/-- findTmdbFromImdb (src/index.js lines 140-145): movie results first, then
tv results, else null. -/
def findTmdbFromImdb (d : FindResult) : Option (String × Nat) :=
  match jsHead d.movie_results with
  | some m => some ("movie", m.id)
  | none =>
    match jsHead d.tv_results with
    | some t => some ("tv", t.id)
    | none => none

/-- tmdbFromImdb (src/index.js lines 988-995): the find call is wrapped in
try/catch and a failure yields null. -/
def tmdbFromImdb : Except Unit FindResult → Option (String × Nat)
  | .error _ => none
  | .ok d => findTmdbFromImdb d

/-- Promise.all over a list of independent lookups, with the completion order
made explicit: `sched` lists the task indices in the order they happen to
complete, producing a completion log of (index, value) pairs; the combined
promise then reads each task's value back by its original index. -/
def runConcurrently {β : Type} (tasks : List β) (sched : List Nat) (dflt : β) :
    List β :=
  let log := sched.map (fun i => (i, tasks.getD i dflt))
  (List.range tasks.length).map (fun i => ((log.lookup i).getD dflt))

/-- The catalog handler's skip extraction: `Number(extra?.skip || 0)`. -/
def skipOf : Option String → Nat
  | none => 0
  | some s => if s.isEmpty then 0 else jsStringToNat s

/-- The result object a catalog handler returns. -/
structure CatalogResponse where
  metas : List MetaPreview
deriving DecidableEq

/-- The catalog handler of src/index.js lines 64-96: unrecognized (type, id)
pairs return an empty metas list; otherwise the window is computed and each
item annotated with its resolved imdb id (`resolve` gives the eventual value
of fetchImdbId, whose failures are caught to null at the call site). -/
def catalogHandler (fetch : Nat → Except Unit (PageResult TvItem))
    (resolve : Nat → Option String) (t cid : String)
    (extraSkip : Option String) : CatalogResponse :=
  if t = "series" ∧ cid = "tmdb-on-air" then
    let skip := skipOf extraSkip
    let window := computeWindow fetch skip 100 20
    ⟨window.map (fun tv => toMetaPreviewFromTmdb tv (resolve tv.id))⟩
  else ⟨[]⟩

/-- Which branch of the meta handler (src/index.js lines 384-511) a request
id selects; emptyMeta is the fallback returning an empty meta object. -/
inductive MetaOutcome where
  | tmdbPage : String → String → MetaOutcome
  | recsPage : String → String → MetaOutcome
  | emptyMeta : MetaOutcome
deriving DecidableEq

/-- The meta handler's dispatch on the request id. -/
def metaHandlerOutcome (id : String) : MetaOutcome :=
  match matchTmdbMeta id with
  | some g => .tmdbPage (if g.1 = "movie" then "movie" else "tv") g.2
  | none =>
    match matchRecsMeta id with
    | some g => .recsPage g.1 g.2
    | none => .emptyMeta

/-- Which branch of the stream handler (src/index.js lines 870-950) a request
id selects; emptyStreams is the fallback returning an empty stream list. -/
inductive StreamOutcome where
  | recsSeries : String → StreamOutcome
  | recsMovie : String → StreamOutcome
  | imdbItem : String → StreamOutcome
  | tmdbItem : String → String → StreamOutcome
  | emptyStreams : StreamOutcome
deriving DecidableEq

/-- The stream handler's dispatch on the request id. -/
def streamHandlerOutcome (id : String) : StreamOutcome :=
  match matchRecsSeriesStream id with
  | some r => .recsSeries r
  | none =>
    match matchRecsMovieStream id with
    | some r => .recsMovie r
    | none =>
      match matchImdbStream id with
      | some im => .imdbItem im
      | none =>
        match matchTmdbStream id with
        | some g => .tmdbItem (if g.1 = "movie" then "movie" else "tv") g.2
        | none => .emptyStreams

/-! ### Helper lemmas -/

/-- The ceiling written with the add-and-divide trick agrees with the
ceiling as the spec phrases it. -/
theorem specCeilDiv_eq (a b : Nat) (hb : 0 < b) :
    (a + b - 1) / b = specCeilDiv a b := by
  have hd := Nat.div_add_mod a b
  have hr : a % b < b := Nat.mod_lt _ hb
  unfold specCeilDiv
  rcases Nat.eq_zero_or_pos (a % b) with h0 | hpos
  · have h1 : a + b - 1 = (b - 1) + b * (a / b) := by omega
    rw [h1, Nat.add_mul_div_left _ _ hb, Nat.div_eq_of_lt (by omega), h0]
    simp
  · have hm : b * (a / b + 1) = b * (a / b) + b := by ring
    have h1 : a + b - 1 = (a % b - 1) + b * (a / b + 1) := by omega
    have hne : ¬ a % b = 0 := by omega
    rw [h1, Nat.add_mul_div_left _ _ hb, Nat.div_eq_of_lt (by omega), if_neg hne]
    omega

/-- Ceiling division rounds up: multiplying it back dominates the dividend. -/
theorem ceil_mul_ge (a b : Nat) (hb : 0 < b) :
    a ≤ ((a + b - 1) / b) * b := by
  have hd := Nat.div_add_mod a b
  have hr : a % b < b := Nat.mod_lt _ hb
  have hc : a / b * b = b * (a / b) := Nat.mul_comm _ _
  rw [specCeilDiv_eq a b hb]
  unfold specCeilDiv
  rcases Nat.eq_zero_or_pos (a % b) with h0 | hpos
  · rw [if_pos h0, Nat.add_zero]
    omega
  · have hne : ¬ a % b = 0 := by omega
    rw [if_neg hne, Nat.add_mul, Nat.one_mul]
    omega

/-- The loop range is never empty: `startPage <= endPage`. -/
theorem startPage_le_endPage (skip limit ps : Nat) (hps : 0 < ps)
    (hl : 0 < limit) :
    skip / ps + 1 ≤ (skip + limit + ps - 1) / ps := by
  have h1 : skip + ps ≤ skip + limit + ps - 1 := by omega
  calc skip / ps + 1 = (skip + ps) / ps := (Nat.add_div_right skip hps).symm
    _ ≤ (skip + limit + ps - 1) / ps := Nat.div_le_div_right h1

/-- With the throwing fetch recovered into an empty final page, the strict
loop succeeds and flattens to exactly what the lenient loop flattens to. -/
theorem fetchPagesStrictAux_recover {α : Type}
    (fetch : Nat → Except Unit (PageResult α)) :
    ∀ (fuel p : Nat), ∃ pgs,
      fetchPagesStrictAux (recoverFetch fetch) p fuel = .ok pgs ∧
      pgs.flatMap jsResults = (fetchPagesAux fetch p fuel).flatMap jsResults := by
  intro fuel
  induction fuel with
  | zero => exact fun p => ⟨[], rfl, rfl⟩
  | succ fuel ih =>
    intro p
    cases hf : fetch p with
    | error e =>
      refine ⟨[⟨p, some [], some p⟩], ?_, ?_⟩
      · have hstop : jsOrNat (some p) p ≤ p := by
          cases p <;> simp [jsOrNat]
        simp [fetchPagesStrictAux, recoverFetch, hf, hstop]
      · simp [fetchPagesAux, hf, jsResults]
    | ok d =>
      by_cases hstop : jsOrNat d.total_pages p ≤ p
      · refine ⟨[d], ?_, ?_⟩
        · simp [fetchPagesStrictAux, recoverFetch, hf, hstop]
        · simp [fetchPagesAux, hf, hstop]
      · obtain ⟨pgs, h1, h2⟩ := ih (p + 1)
        refine ⟨d :: pgs, ?_, ?_⟩
        · simp [fetchPagesStrictAux, recoverFetch, hf, hstop, h1, Except.map]
        · simp [fetchPagesAux, hf, hstop, h2]

/-! ### Claim theorems -/

/-- C1: computeWindow follows the specified algorithm: it equals the
spec-side formulation (startPage = floor(skip/pageSize)+1, endPage =
ceil((skip+limit)/pageSize), fetch ascending with early stop, concatenate,
return the sub-sequence [localOffset, localOffset+limit) clipped); and in the
concrete scenario pageSize=20, skip=95, limit=10 with pages 5 and 6 available
(page 5 reporting at least 6 total pages) exactly pages 5 and 6 are requested
and the window is elements [15,25) of their concatenation. -/
theorem c1_computeWindow_algorithm {α β : Type}
    (fetch : Nat → Except Unit (PageResult α)) (skip limit pageSize : Nat)
    (hps : 0 < pageSize) :
    computeWindow fetch skip limit pageSize =
      computeWindowSpec fetch skip limit pageSize
    ∧ ∀ (g : Nat → Except Unit (PageResult β)) (e5 e6 : PageResult β),
        g 5 = .ok e5 → g 6 = .ok e6 → 6 ≤ jsOrNat e5.total_pages 5 →
        requestedPages g 5 6 = [5, 6] ∧
        computeWindow g 95 10 20 =
          ((jsResults e5 ++ jsResults e6).drop 15).take 10 := by
  constructor
  · simp only [computeWindow, computeWindowSpec,
      specCeilDiv_eq (skip + limit) pageSize hps]
    rw [List.take_drop]
  · intro g e5 e6 h5 h6 hstop
    have hns : ¬ jsOrNat e5.total_pages 5 ≤ 5 := by omega
    constructor
    · show requestedPagesAux g 5 (6 + 1 - 5) = [5, 6]
      have : (6 : Nat) + 1 - 5 = 2 := by norm_num
      rw [this]
      simp only [requestedPagesAux, h5, h6, if_neg hns]
      by_cases hc : jsOrNat e6.total_pages 6 ≤ 6 <;> simp [hc]
    · have e1 : (95 : Nat) / 20 + 1 = 5 := by norm_num
      have e2 : ((95 : Nat) + 10 + 20 - 1) / 20 = 6 := by norm_num
      have e3 : (95 : Nat) % 20 = 15 := by norm_num
      have h2 : (6 : Nat) + 1 - 5 = 2 := by norm_num
      simp only [computeWindow, fetchPages, e1, e2, e3, h2]
      simp only [fetchPagesAux, h5, h6, if_neg hns]
      by_cases hc : jsOrNat e6.total_pages 6 ≤ 6 <;>
        simp [hc, List.flatMap_cons]

/-- Witness for C1 at a concrete upstream of 120 items in pages of 20. -/
theorem c1_computeWindow_algorithm_witness :
    0 < 20 ∧
    (requestedPages (fetchOf (List.range 120) 20) 5 6 = [5, 6] ∧
     computeWindow (fetchOf (List.range 120) 20) 95 10 20 =
       ((jsResults (⟨5, some (pageOf (List.range 120) 20 5),
            some (totalPagesOf (List.range 120) 20)⟩ : PageResult Nat) ++
         jsResults (⟨6, some (pageOf (List.range 120) 20 6),
            some (totalPagesOf (List.range 120) 20)⟩ : PageResult Nat)).drop
           15).take 10) :=
  ⟨by decide,
   (c1_computeWindow_algorithm (β := Nat) (fetchOf (List.range 120) 20)
       95 10 20 (by decide)).2
     (fetchOf (List.range 120) 20) _ _ rfl rfl (by decide)⟩

/-- C4 counterexample: in the revision whose fetch loop has no try/catch, a
fetch failure on the first page propagates out of the windowing computation
instead of producing a result object. -/
theorem c4_fetch_failure_counterexample :
    computeWindowStrict (fun _ => (.error () : Except Unit (PageResult Nat)))
      0 100 20 = .error () := rfl

/-- C4 amended: in the try/catch revision (src/index.js lines 78-84) a page
fetch failure never propagates; the handler behaves exactly as if the failing
page were reported as an empty final page, returning the window over the pages
accumulated before the failure.  In the revision without try/catch
(src/index.js lines 286-291) a failure of the first requested page makes the
whole computation fail. -/
theorem c4_fetch_failure_amended {α : Type} :
    (∀ (fetch : Nat → Except Unit (PageResult α)) (skip limit ps : Nat),
       computeWindowStrict (recoverFetch fetch) skip limit ps =
         .ok (computeWindow fetch skip limit ps))
    ∧ (∀ (fetch : Nat → Except Unit (PageResult α)) (skip limit ps : Nat),
        0 < ps → 0 < limit → fetch (skip / ps + 1) = .error () →
        computeWindowStrict fetch skip limit ps = .error ()) := by
  constructor
  · intro fetch skip limit ps
    obtain ⟨pgs, h1, h2⟩ :=
      fetchPagesStrictAux_recover fetch
        ((skip + limit + ps - 1) / ps + 1 - (skip / ps + 1)) (skip / ps + 1)
    simp only [computeWindowStrict, computeWindow, fetchPagesStrict,
      fetchPages, h1, Except.map, h2]
  · intro fetch skip limit ps hps hl hfail
    have hle := startPage_le_endPage skip limit ps hps hl
    have hfuel : (skip + limit + ps - 1) / ps + 1 - (skip / ps + 1) =
        ((skip + limit + ps - 1) / ps - (skip / ps + 1)) + 1 := by omega
    simp only [computeWindowStrict, fetchPagesStrict, hfuel,
      fetchPagesStrictAux, hfail, Except.map]

/-- Witness for C4's amended theorem at a fetch failing from page 3 over a
60-item upstream. -/
theorem c4_fetch_failure_amended_witness :
    (computeWindowStrict
        (recoverFetch (fun p =>
          if p ≤ 2 then fetchOf (List.range 60) 20 p
          else (.error () : Except Unit (PageResult Nat)))) 0 100 20 =
      .ok (computeWindow
        (fun p =>
          if p ≤ 2 then fetchOf (List.range 60) 20 p
          else (.error () : Except Unit (PageResult Nat))) 0 100 20))
    ∧ (0 < 20 ∧ 0 < 100 ∧
       computeWindowStrict (fun _ => (.error () : Except Unit (PageResult Nat)))
         40 100 20 = .error ()) :=
  ⟨(c4_fetch_failure_amended (α := Nat)).1 _ 0 100 20,
   by decide, by decide,
   (c4_fetch_failure_amended (α := Nat)).2 _ 40 100 20 (by decide) (by decide)
     rfl⟩

/-- C5: resolvePublicId is total over every lookup outcome; it renders to the
same identifier string the source's toMetaPreviewFromTmdb chooses, every
failure or absence degrades to the synthetic identifier for the native (tv,
id) pair, a non-empty external id is returned as the external form, and the
result is always exactly one of the two forms. -/
theorem c5_resolvePublicId_total (o : ExtIdsOutcome) (tvId : Nat) :
    renderResolved (resolvePublicId o tvId) = metaPreviewId (imdbForTv o) tvId
    ∧ ((o = .thrown ∨ o = .badStatus ∨ o = .okBody none ∨
          o = .okBody (some "")) →
        resolvePublicId o tvId = .synthetic "tv" tvId)
    ∧ (∀ s, o = .okBody (some s) → s.isEmpty = false →
        resolvePublicId o tvId = .external s)
    ∧ ((∃ s, resolvePublicId o tvId = .external s) ↔
        ¬ ∃ ty n, resolvePublicId o tvId = .synthetic ty n) := by
  have hrender : ∀ (r : ResolvedIdentifier),
      (∃ s, r = .external s) ↔ ¬ ∃ ty n, r = .synthetic ty n := by
    intro r
    cases r <;> simp
  cases o with
  | thrown =>
    exact ⟨rfl, fun _ => rfl,
      fun s hs _ => ExtIdsOutcome.noConfusion hs, hrender _⟩
  | badStatus =>
    exact ⟨rfl, fun _ => rfl,
      fun s hs _ => ExtIdsOutcome.noConfusion hs, hrender _⟩
  | okBody j =>
    cases j with
    | none =>
      refine ⟨rfl, fun _ => rfl, ?_, hrender _⟩
      intro s hs hf
      injection hs with h1
      exact Option.noConfusion h1
    | some s =>
      by_cases he : s.isEmpty = true
      · have hs : s = "" := (String.isEmpty_iff s).mp he
        subst hs
        refine ⟨rfl, fun _ => rfl, ?_, hrender _⟩
        intro t ht hf
        injection ht with h1
        injection h1 with h2
        rw [← h2] at hf
        exact Bool.noConfusion
          ((by decide : "".isEmpty = true).symm.trans hf)
      · have he' : s.isEmpty = false := by
          cases h : s.isEmpty
          · rfl
          · exact absurd h he
        refine ⟨?_, ?_, ?_, hrender _⟩
        · simp [resolvePublicId, imdbForTv, jsOrStrNone, metaPreviewId,
            renderResolved, he']
        · intro hcase
          exfalso
          rcases hcase with h | h | h | h
          · exact ExtIdsOutcome.noConfusion h
          · exact ExtIdsOutcome.noConfusion h
          · injection h with h1
            exact Option.noConfusion h1
          · injection h with h1
            injection h1 with h2
            subst h2
            exact Bool.noConfusion
              ((by decide : "".isEmpty = true).symm.trans he')
        · intro t ht hf
          injection ht with h1
          injection h1 with h2
          subst h2
          simp [resolvePublicId, imdbForTv, jsOrStrNone, he']

/-- Witness for C5 at a thrown lookup and at a successful lookup. -/
theorem c5_resolvePublicId_total_witness :
    ((ExtIdsOutcome.thrown = .thrown ∨ ExtIdsOutcome.thrown = .badStatus ∨
        ExtIdsOutcome.thrown = .okBody none ∨
        ExtIdsOutcome.thrown = .okBody (some "")) →
      resolvePublicId .thrown 7 = .synthetic "tv" 7)
    ∧ resolvePublicId .thrown 7 = .synthetic "tv" 7 :=
  ⟨(c5_resolvePublicId_total .thrown 7).2.1,
   (c5_resolvePublicId_total .thrown 7).2.1 (Or.inl rfl)⟩

/-- C7: the reverse lookup consults the movie result list first, then the tv
result list, returns the first match as a (nativeType, nativeId) pair, and
returns null rather than an error when neither list matches or when the find
call itself fails. -/
theorem c7_reverse_lookup (r : Except Unit FindResult) :
    (∀ d m, r = .ok d → jsHead d.movie_results = some m →
      tmdbFromImdb r = some ("movie", m.id))
    ∧ (∀ d t, r = .ok d → jsHead d.movie_results = none →
        jsHead d.tv_results = some t → tmdbFromImdb r = some ("tv", t.id))
    ∧ (∀ d, r = .ok d → jsHead d.movie_results = none →
        jsHead d.tv_results = none → tmdbFromImdb r = none)
    ∧ (∀ e, r = .error e → tmdbFromImdb r = none) := by
  refine ⟨?_, ?_, ?_, ?_⟩
  · intro d m hr hm
    subst hr
    simp [tmdbFromImdb, findTmdbFromImdb, hm]
  · intro d t hr hm ht
    subst hr
    simp [tmdbFromImdb, findTmdbFromImdb, hm, ht]
  · intro d hr hm ht
    subst hr
    simp [tmdbFromImdb, findTmdbFromImdb, hm, ht]
  · intro e hr
    subst hr
    rfl

/-- Witness for C7 on a find result whose movie list is empty and whose tv
list holds one item. -/
theorem c7_reverse_lookup_witness :
    tmdbFromImdb (.ok ⟨some [], some [⟨31⟩]⟩) = some ("tv", 31) :=
  (c7_reverse_lookup (.ok ⟨some [], some [⟨31⟩]⟩)).2.1 _ ⟨31⟩ rfl rfl rfl

/-- Over the canonical paged upstream, the fetch loop returns the consecutive
run of pages from its start page, cut off by the loop bound or by the
reported total page count, whichever comes first. -/
theorem fetchPagesAux_fetchOf {α : Type} (L : List α) (ps : Nat) :
    ∀ (fuel p : Nat),
      fetchPagesAux (fetchOf L ps) p fuel =
        (List.range' p (min fuel (max (totalPagesOf L ps) p + 1 - p))).map
          (fun q =>
            (⟨q, some (pageOf L ps q), some (totalPagesOf L ps)⟩ :
              PageResult α)) := by
  intro fuel
  induction fuel with
  | zero =>
    intro p
    simp [fetchPagesAux]
  | succ fuel ih =>
    intro p
    simp only [fetchPagesAux, fetchOf]
    rw [ih (p + 1)]
    cases hT : totalPagesOf L ps with
    | zero =>
      have hg : jsOrNat (some 0) p ≤ p := by cases p <;> simp [jsOrNat]
      rw [if_pos hg]
      have hc : min (fuel + 1) (max 0 p + 1 - p) = 1 := by omega
      rw [hc, List.range'_succ]
      simp
    | succ t =>
      have hj : jsOrNat (some (t + 1)) p = t + 1 := rfl
      rw [hj]
      by_cases hg : t + 1 ≤ p
      · rw [if_pos hg]
        have hc : min (fuel + 1) (max (t + 1) p + 1 - p) = 1 := by omega
        rw [hc, List.range'_succ]
        simp
      · rw [if_neg hg]
        have hc : min (fuel + 1) (max (t + 1) p + 1 - p) =
            min fuel (max (t + 1) (p + 1) + 1 - (p + 1)) + 1 := by omega
        rw [hc, List.range'_succ]
        simp

/-- Flattening the consecutive pages of a list yields a contiguous segment
of it. -/
theorem flatMap_range'_pageOf {α : Type} (L : List α) (ps : Nat) :
    ∀ (k p : Nat), 1 ≤ p →
      (List.range' p k).flatMap (fun q => pageOf L ps q) =
        (L.drop ((p - 1) * ps)).take (k * ps) := by
  intro k
  induction k with
  | zero =>
    intro p hp
    simp
  | succ k ih =>
    intro p hp
    rw [List.range'_succ, List.flatMap_cons, ih (p + 1) (by omega)]
    have hstep : (p + 1 - 1) * ps = (p - 1) * ps + ps := by
      rw [show p + 1 - 1 = (p - 1) + 1 by omega, Nat.succ_mul]
    rw [hstep, ← List.drop_drop, pageOf,
      show (k + 1) * ps = ps + k * ps by ring, List.take_add]

/-- `computeWindow` over the canonical paged upstream, written as a slice of
the underlying list. -/
theorem computeWindow_fetchOf_flat {α : Type} (L : List α)
    (skip limit ps : Nat) :
    computeWindow (fetchOf L ps) skip limit ps =
      (((L.drop (skip / ps * ps)).take
          (min ((skip + limit + ps - 1) / ps + 1 - (skip / ps + 1))
              (max (totalPagesOf L ps) (skip / ps + 1) + 1 - (skip / ps + 1)) *
            ps)).drop
          (skip % ps)).take limit := by
  simp only [computeWindow, fetchPages]
  rw [fetchPagesAux_fetchOf, List.flatMap_map]
  simp only [jsResults, Option.getD_some]
  rw [flatMap_range'_pageOf L ps _ (skip / ps + 1) (Nat.le_add_left 1 _)]
  simp

/-- C2: over an upstream serving a fixed list in pages of `ps` items (the
last page possibly partial), computeWindow returns exactly
min(limit, items available at offsets at or beyond skip) items; for any
upstream whatsoever it never returns more than `limit` items; and a skip at
or beyond the upstream item count yields the empty window rather than an
error. -/
theorem c2_window_length {α β : Type} (L : List α) (skip limit ps : Nat)
    (hps : 0 < ps) (hl : 0 < limit) :
    (computeWindow (fetchOf L ps) skip limit ps).length =
      min limit (L.length - skip)
    ∧ (∀ (g : Nat → Except Unit (PageResult β)) (s l p : Nat),
        (computeWindow g s l p).length ≤ l)
    ∧ (L.length ≤ skip → computeWindow (fetchOf L ps) skip limit ps = []) := by
  have hmain : (computeWindow (fetchOf L ps) skip limit ps).length =
      min limit (L.length - skip) := by
    rw [computeWindow_fetchOf_flat]
    simp only [List.length_take, List.length_drop]
    have hBoff : skip / ps * ps + skip % ps = skip := Nat.div_add_mod' skip ps
    have hepmul : skip + limit ≤ ((skip + limit + ps - 1) / ps) * ps :=
      ceil_mul_ge (skip + limit) ps hps
    have hTmul : L.length ≤ totalPagesOf L ps * ps :=
      ceil_mul_ge L.length ps hps
    rcases Nat.le_total
        ((skip + limit + ps - 1) / ps + 1 - (skip / ps + 1))
        (max (totalPagesOf L ps) (skip / ps + 1) + 1 - (skip / ps + 1)) with
      hmin | hmin
    · rw [min_eq_left hmin]
      have hsub : ((skip + limit + ps - 1) / ps + 1 - (skip / ps + 1)) * ps =
          ((skip + limit + ps - 1) / ps) * ps - skip / ps * ps := by
        rw [show (skip + limit + ps - 1) / ps + 1 - (skip / ps + 1) =
            (skip + limit + ps - 1) / ps - skip / ps by omega, Nat.sub_mul]
      have hge : skip % ps + limit ≤
          ((skip + limit + ps - 1) / ps + 1 - (skip / ps + 1)) * ps := by
        rw [hsub]
        omega
      omega
    · rw [min_eq_right hmin]
      have hcover : L.length ≤ skip / ps * ps +
          (max (totalPagesOf L ps) (skip / ps + 1) + 1 - (skip / ps + 1)) *
            ps := by
        rcases Nat.le_total (totalPagesOf L ps) (skip / ps + 1) with hTd | hTd
        · rw [max_eq_right hTd,
            show skip / ps + 1 + 1 - (skip / ps + 1) = 1 by omega, one_mul]
          have h1 : totalPagesOf L ps * ps ≤ (skip / ps + 1) * ps :=
            Nat.mul_le_mul_right ps hTd
          have h2 : (skip / ps + 1) * ps = skip / ps * ps + ps := by ring
          omega
        · rw [max_eq_left hTd,
            show totalPagesOf L ps + 1 - (skip / ps + 1) =
              totalPagesOf L ps - skip / ps by omega, Nat.sub_mul]
          have h1 : skip / ps * ps ≤ totalPagesOf L ps * ps :=
            Nat.mul_le_mul_right ps (by omega)
          omega
      omega
  refine ⟨hmain, ?_, ?_⟩
  · intro g s l p
    simp only [computeWindow]
    exact List.length_take_le _ _
  · intro hskip
    have h0 : min limit (L.length - skip) = 0 := by omega
    have := hmain
    rw [h0] at this
    exact List.length_eq_zero.mp this

/-- Witness for C2 over a 47-item upstream in pages of 20. -/
theorem c2_window_length_witness :
    (0 < 20 ∧ 0 < 100 ∧
      (computeWindow (fetchOf (List.range 47) 20) 40 100 20).length =
        min 100 ((List.range 47).length - 40))
    ∧ ((List.range 47).length ≤ 60 →
        computeWindow (fetchOf (List.range 47) 20) 60 100 20 = []) :=
  ⟨⟨by decide, by decide,
    (c2_window_length (β := Nat) (List.range 47) 40 100 20 (by decide)
        (by decide)).1⟩,
   (c2_window_length (β := Nat) (List.range 47) 60 100 20 (by decide)
       (by decide)).2.2⟩

/-- The loop requests a consecutive run of page numbers. -/
theorem requestedPagesAux_range' {α : Type}
    (fetch : Nat → Except Unit (PageResult α)) :
    ∀ (fuel p : Nat), ∃ k, k ≤ fuel ∧
      requestedPagesAux fetch p fuel = List.range' p k := by
  intro fuel
  induction fuel with
  | zero =>
    intro p
    exact ⟨0, Nat.le_refl 0, rfl⟩
  | succ fuel ih =>
    intro p
    simp only [requestedPagesAux]
    cases hf : fetch p with
    | error e =>
      exact ⟨1, by omega, by simp [List.range'_succ]⟩
    | ok d =>
      by_cases hstop : jsOrNat d.total_pages p ≤ p
      · exact ⟨1, by omega, by simp [hstop, List.range'_succ]⟩
      · obtain ⟨k, hk, hrec⟩ := ih (p + 1)
        exact ⟨k + 1, by omega, by simp [hstop, hrec, List.range'_succ]⟩

/-- Every requested page number is at least the loop's current page. -/
theorem requestedPagesAux_mem_lb {α : Type}
    (fetch : Nat → Except Unit (PageResult α)) (fuel p q : Nat)
    (hq : q ∈ requestedPagesAux fetch p fuel) : p ≤ q := by
  obtain ⟨k, _, hr⟩ := requestedPagesAux_range' fetch fuel p
  rw [hr] at hq
  rw [List.mem_range'] at hq
  obtain ⟨i, _, hi⟩ := hq
  omega

/-- If the stop condition held at some requested page, no later page was
requested. -/
theorem requestedPagesAux_stop {α : Type}
    (fetch : Nat → Except Unit (PageResult α)) (p : Nat) (d : PageResult α)
    (hp : fetch p = .ok d) (hstop : jsOrNat d.total_pages p ≤ p) :
    ∀ (fuel p0 : Nat), p ∈ requestedPagesAux fetch p0 fuel →
      ∀ q ∈ requestedPagesAux fetch p0 fuel, q ≤ p := by
  intro fuel
  induction fuel with
  | zero =>
    intro p0 hmem
    simp [requestedPagesAux] at hmem
  | succ fuel ih =>
    intro p0 hmem q hq
    cases hf : fetch p0 with
    | error e =>
      simp only [requestedPagesAux, hf] at hmem hq
      simp at hmem hq
      omega
    | ok d0 =>
      simp only [requestedPagesAux, hf] at hmem hq
      by_cases hstop0 : jsOrNat d0.total_pages p0 ≤ p0
      · rw [if_pos hstop0] at hmem hq
        simp at hmem hq
        omega
      · rw [if_neg hstop0] at hmem hq
        rcases List.mem_cons.mp hmem with hpe | hpm
        · subst hpe
          rw [hp] at hf
          injection hf with hd
          rw [hd] at hstop
          exact absurd hstop hstop0
        · rcases List.mem_cons.mp hq with hqe | hqm
          · have := requestedPagesAux_mem_lb fetch fuel (p0 + 1) p hpm
            omega
          · exact ih (p0 + 1) hpm q hqm

/-- C3: within one call the requested page numbers are strictly increasing
(hence no page is requested twice), and once a fetched page `p` reports a
total page count `T` with `p >= T`, no page beyond `p` is requested. -/
theorem c3_requested_pages {α : Type}
    (fetch : Nat → Except Unit (PageResult α)) (sp ep : Nat) :
    List.Pairwise (· < ·) (requestedPages fetch sp ep)
    ∧ (requestedPages fetch sp ep).Nodup
    ∧ (∀ p d T, fetch p = .ok d → d.total_pages = some T → T ≤ p →
        p ∈ requestedPages fetch sp ep →
        ∀ q ∈ requestedPages fetch sp ep, q ≤ p) := by
  have hpw : List.Pairwise (· < ·) (requestedPages fetch sp ep) := by
    obtain ⟨k, _, hr⟩ :=
      requestedPagesAux_range' fetch (ep + 1 - sp) sp
    rw [requestedPages, hr]
    exact List.pairwise_lt_range' sp k
  refine ⟨hpw, hpw.imp Nat.ne_of_lt, ?_⟩
  intro p d T hp hT hTle hmem q hq
  have hstop : jsOrNat d.total_pages p ≤ p := by
    rw [hT]
    cases T with
    | zero => simp [jsOrNat]
    | succ t => simpa [jsOrNat] using hTle
  exact requestedPagesAux_stop fetch p d hp hstop (ep + 1 - sp) sp hmem q hq

/-- Witness for C3 over a 50-item upstream (3 pages of 20): page 3 reports
total 3, and indeed every requested page is at most 3. -/
theorem c3_requested_pages_witness :
    fetchOf (List.range 50) 20 3 = .ok
      ⟨3, some (pageOf (List.range 50) 20 3),
        some (totalPagesOf (List.range 50) 20)⟩
    ∧ (⟨3, some (pageOf (List.range 50) 20 3),
        some (totalPagesOf (List.range 50) 20)⟩ :
          PageResult Nat).total_pages = some 3
    ∧ (3 : Nat) ∈ requestedPages (fetchOf (List.range 50) 20) 1 5
    ∧ (2 : Nat) ∈ requestedPages (fetchOf (List.range 50) 20) 1 5
    ∧ (2 : Nat) ≤ 3 :=
  ⟨rfl, by decide, by decide, by decide,
   (c3_requested_pages (fetchOf (List.range 50) 20) 1 5).2.2 3 _ 3 rfl
     (by decide) (by decide) (by decide) 2 (by decide)⟩

/-- Looking an index up in a completion log keyed by index always retrieves
that index's own value, whatever order the log was written in. -/
theorem lookup_map_pair {β : Type} (f : Nat → β) :
    ∀ (sched : List Nat) (i : Nat), i ∈ sched →
      (sched.map (fun j => (j, f j))).lookup i = some (f i) := by
  intro sched
  induction sched with
  | nil =>
    intro i hi
    simp at hi
  | cons j t ih =>
    intro i hi
    rcases List.mem_cons.mp hi with h | h
    · subst h
      simp [List.lookup_cons]
    · by_cases heq : i = j
      · subst heq
        simp [List.lookup_cons]
      · have hne : (i == j) = false := by simp [heq]
        simp [List.lookup_cons, hne, ih i h]

/-- Promise.all re-joined by original index returns the tasks' own values in
task order, for every completion order that is a permutation of the task
indices. -/
theorem runConcurrently_eq {β : Type} (tasks : List β) (sched : List Nat)
    (d : β) (hperm : sched.Perm (List.range tasks.length)) :
    runConcurrently tasks sched d = tasks := by
  apply List.ext_getElem
  · simp [runConcurrently]
  · intro i h1 h2
    simp only [runConcurrently, List.getElem_map, List.getElem_range]
    have hi : i ∈ sched :=
      hperm.mem_iff.mpr (List.mem_range.mpr h2)
    rw [lookup_map_pair (fun j => tasks.getD j d) sched i hi]
    simp [List.getD_eq_getElem _ _ h2, List.getElem?_eq_getElem h2]

/-- C8: resolving a batch of window items concurrently preserves the input
order: whatever the completion order of the individual lookups, the joined
id list equals the per-item resolution in window order, and the i-th meta is
built from the i-th window item with that item's own resolved id. -/
theorem c8_concurrent_order (window : List TvItem)
    (resolve : Nat → Option String) (sched : List Nat)
    (hperm : sched.Perm (List.range window.length)) :
    runConcurrently (window.map (fun tv => resolve tv.id)) sched none =
      window.map (fun tv => resolve tv.id)
    ∧ List.zipWith toMetaPreviewFromTmdb window
        (runConcurrently (window.map (fun tv => resolve tv.id)) sched none) =
      window.map (fun tv => toMetaPreviewFromTmdb tv (resolve tv.id)) := by
  have h1 : runConcurrently (window.map (fun tv => resolve tv.id)) sched none =
      window.map (fun tv => resolve tv.id) := by
    apply runConcurrently_eq
    rwa [List.length_map]
  refine ⟨h1, ?_⟩
  rw [h1, List.zipWith_map_right, List.zipWith_same]

/-- Witness for C8 on three items with the middle lookup completing last. -/
theorem c8_concurrent_order_witness :
    ([1, 2, 0] : List Nat).Perm
      (List.range ([⟨5, none, none, none, none, none⟩,
        ⟨6, none, none, none, none, none⟩,
        ⟨7, none, none, none, none, none⟩] : List TvItem).length)
    ∧ runConcurrently
        (([⟨5, none, none, none, none, none⟩,
          ⟨6, none, none, none, none, none⟩,
          ⟨7, none, none, none, none, none⟩] : List TvItem).map
          (fun tv => (fun n => if n = 6 then none else some "tt1") tv.id))
        [1, 2, 0] none =
      ([⟨5, none, none, none, none, none⟩,
        ⟨6, none, none, none, none, none⟩,
        ⟨7, none, none, none, none, none⟩] : List TvItem).map
        (fun tv => (fun n => if n = 6 then none else some "tt1") tv.id) :=
  ⟨by decide,
   (c8_concurrent_order
     [⟨5, none, none, none, none, none⟩,
      ⟨6, none, none, none, none, none⟩,
      ⟨7, none, none, none, none, none⟩]
     (fun n => if n = 6 then none else some "tt1") [1, 2, 0] (by decide)).1⟩

/-- C9: each public handler is total on unrecognized inputs: a catalog
request whose (type, id) pair is not the supported one returns an empty metas
object, a meta request whose id matches neither the tmdb pattern nor the recs
pattern falls through to the empty-meta outcome, and a stream request whose
id matches none of the four supported patterns falls through to the
empty-streams outcome. -/
theorem c9_handlers_total (t cid mid sid : String)
    (fetch : Nat → Except Unit (PageResult TvItem))
    (resolve : Nat → Option String) (extraSkip : Option String) :
    (¬ (t = "series" ∧ cid = "tmdb-on-air") →
      catalogHandler fetch resolve t cid extraSkip = ⟨[]⟩)
    ∧ (matchTmdbMeta mid = none → matchRecsMeta mid = none →
        metaHandlerOutcome mid = .emptyMeta)
    ∧ (matchRecsSeriesStream sid = none → matchRecsMovieStream sid = none →
        matchImdbStream sid = none → matchTmdbStream sid = none →
        streamHandlerOutcome sid = .emptyStreams) := by
  refine ⟨?_, ?_, ?_⟩
  · intro h
    simp only [catalogHandler, if_neg h]
  · intro h1 h2
    simp only [metaHandlerOutcome, h1, h2]
  · intro h1 h2 h3 h4
    simp only [streamHandlerOutcome, h1, h2, h3, h4]

/-- Witness for C9 on a movie-typed catalog request and an unrecognized id. -/
theorem c9_handlers_total_witness :
    (¬ ("movie" = "series" ∧ "nope" = "tmdb-on-air"))
    ∧ matchTmdbMeta "hello" = none
    ∧ matchRecsMeta "hello" = none
    ∧ catalogHandler (fun _ => .error ()) (fun _ => none) "movie" "nope"
        none = ⟨[]⟩
    ∧ metaHandlerOutcome "hello" = .emptyMeta
    ∧ streamHandlerOutcome "hello" = .emptyStreams :=
  ⟨by simp, rfl, rfl,
   (c9_handlers_total "movie" "nope" "hello" "hello" (fun _ => .error ())
       (fun _ => none) none).1 (by simp),
   (c9_handlers_total "movie" "nope" "hello" "hello" (fun _ => .error ())
       (fun _ => none) none).2.1 rfl rfl,
   (c9_handlers_total "movie" "nope" "hello" "hello" (fun _ => .error ())
       (fun _ => none) none).2.2 rfl rfl rfl rfl⟩

/-- At skip 0 over the canonical paged upstream, the window is exactly the
first `limit` items of the list. -/
theorem computeWindow_fetchOf_zero {α : Type} (L : List α) (limit ps : Nat)
    (hps : 0 < ps) (hl : 0 < limit) :
    computeWindow (fetchOf L ps) 0 limit ps = L.take limit := by
  rw [computeWindow_fetchOf_flat]
  simp only [Nat.zero_div, Nat.zero_mul, Nat.zero_add, List.drop_zero,
    Nat.zero_mod, Nat.add_sub_cancel]
  have hdisj : limit ≤
        min ((limit + ps - 1) / ps) (max (totalPagesOf L ps) 1) * ps
      ∨ L.length ≤
        min ((limit + ps - 1) / ps) (max (totalPagesOf L ps) 1) * ps := by
    rcases Nat.le_total ((limit + ps - 1) / ps) (max (totalPagesOf L ps) 1)
      with hm | hm
    · left
      rw [min_eq_left hm]
      exact ceil_mul_ge limit ps hps
    · right
      rw [min_eq_right hm]
      calc L.length ≤ totalPagesOf L ps * ps := ceil_mul_ge L.length ps hps
        _ ≤ max (totalPagesOf L ps) 1 * ps :=
          Nat.mul_le_mul_right ps (le_max_left _ _)
  rcases hdisj with hd | hd
  · rw [List.take_take, min_eq_left hd]
  · rw [List.take_of_length_le hd]

/-- C10: a catalog request with the skip extra absent (or empty) is handled
exactly as skip = 0: the extraction Number(extra skip or 0) yields 0 in all
three cases, the handler returns the same window as an explicit skip 0
request, and at skip 0 the start page is 1, the local offset is 0 and the
window is the first `limit` items of the upstream list (limit = 100 in the
handler). -/
theorem c10_absent_skip (fetch : Nat → Except Unit (PageResult TvItem))
    (resolve : Nat → Option String) (L : List TvItem) :
    skipOf none = 0
    ∧ skipOf (some "") = 0
    ∧ skipOf (some "0") = 0
    ∧ catalogHandler fetch resolve "series" "tmdb-on-air" none =
        catalogHandler fetch resolve "series" "tmdb-on-air" (some "0")
    ∧ catalogHandler fetch resolve "series" "tmdb-on-air" (some "") =
        catalogHandler fetch resolve "series" "tmdb-on-air" (some "0")
    ∧ 0 / 20 + 1 = 1 ∧ 0 % 20 = 0
    ∧ computeWindow (fetchOf L 20) 0 100 20 = L.take 100 :=
  ⟨rfl, rfl, rfl, rfl, rfl, rfl, rfl,
   computeWindow_fetchOf_zero L 100 20 (by decide) (by decide)⟩

/-- The character of a digit below ten is a digit character. -/
theorem digitChar_isDigit (m : Nat) (h : m < 10) :
    (Nat.digitChar m).isDigit = true := by
  interval_cases m <;> decide

/-- A decimal numeral is never empty. -/
theorem natDec_ne_nil (n : Nat) : natDec n ≠ [] := by
  rw [natDec]
  split
  · simp
  · simp

/-- Every character of a decimal numeral is a digit. -/
theorem natDec_digits (n : Nat) : ∀ c ∈ natDec n, c.isDigit = true := by
  induction n using Nat.strong_induction_on with
  | _ n ih =>
    rw [natDec]
    split
    · next h =>
      intro c hc
      simp at hc
      subst hc
      exact digitChar_isDigit n h
    · next h =>
      intro c hc
      rw [List.mem_append] at hc
      rcases hc with hc | hc
      · exact ih (n / 10) (Nat.div_lt_self (by omega) (by omega)) c hc
      · simp at hc
        subst hc
        exact digitChar_isDigit (n % 10) (Nat.mod_lt _ (by omega))

/-- Digit value of the digit character of a digit below ten. -/
theorem digitVal_digitChar (m : Nat) (h : m < 10) :
    digitVal (Nat.digitChar m) = m := by
  interval_cases m <;> decide

/-- Folding the digit accumulator over a decimal numeral recovers the number,
shifted under the starting accumulator. -/
theorem foldl_digits_natDec (n : Nat) :
    ∀ acc, List.foldl (fun a c => a * 10 + digitVal c) acc (natDec n) =
      acc * 10 ^ (natDec n).length + n := by
  induction n using Nat.strong_induction_on with
  | _ n ih =>
    intro acc
    rw [natDec]
    split
    · next h =>
      simp [List.foldl_cons, List.foldl_nil, digitVal_digitChar n h, pow_one]
    · next h =>
      rw [List.foldl_append,
        ih (n / 10) (Nat.div_lt_self (by omega) (by omega)) acc,
        List.foldl_cons, List.foldl_nil,
        digitVal_digitChar (n % 10) (Nat.mod_lt _ (by omega)),
        List.length_append, List.length_cons, List.length_nil]
      have hdm : n / 10 * 10 + n % 10 = n := Nat.div_add_mod' n 10
      calc (acc * 10 ^ (natDec (n / 10)).length + n / 10) * 10 + n % 10
          = acc * (10 ^ (natDec (n / 10)).length * 10) +
              (n / 10 * 10 + n % 10) := by ring
        _ = acc * 10 ^ ((natDec (n / 10)).length + (0 + 1)) + n := by
            rw [hdm]
            ring

/-- Reading the decimal numeral of a number back recovers the number. -/
theorem digitsToNat_natDec (n : Nat) : digitsToNat (natDec n) = n := by
  unfold digitsToNat
  rw [foldl_digits_natDec n 0]
  simp

/-- A decimal numeral is a non-empty all-digit string. -/
theorem digitStr_natDec (n : Nat) : digitStr (natDec n) = true := by
  unfold digitStr
  rw [Bool.and_eq_true]
  constructor
  · have h := natDec_ne_nil n
    cases hl : natDec n with
    | nil => exact absurd hl h
    | cons a b => simp
  · rw [List.all_eq_true]
    intro c hc
    exact natDec_digits n c hc

/-- A case-insensitive literal pattern consumes a copy of itself made of
characters that are their own lower case. -/
theorem dropLitCI_append (pat rest : List Char)
    (h : ∀ c ∈ pat, c.toLower = c) :
    dropLitCI pat (pat ++ rest) = some rest := by
  induction pat with
  | nil => rfl
  | cons c cs ih =>
    simp only [List.cons_append, dropLitCI]
    rw [h c (List.mem_cons_self c cs), if_pos rfl]
    exact ih (fun x hx => h x (List.mem_cons_of_mem c hx))

/-- C6: the synthetic identifier scheme round-trips: for each native type
(movie or tv) and native id, the produced string is the literal
tmdb:(type):(decimal id), the handler id pattern matches it recovering the
type capture and the digit capture exactly, and decoding the captures with
the handler's ternary and the numeric value of the digits yields back exactly
the original (type, id) pair. -/
theorem c6_synthetic_roundtrip (ty : String) (n : Nat)
    (hty : ty = "movie" ∨ ty = "tv") :
    synthId ty n = "tmdb:" ++ ty ++ ":" ++ natStr n
    ∧ matchTmdbMeta (synthId ty n) = some (ty, String.mk (natDec n))
    ∧ decodeTmdbMeta (synthId ty n) = some (ty, n) := by
  have hdigits := digitStr_natDec n
  rcases hty with h | h <;> subst h
  · have hred : matchTmdbMeta (synthId "movie" n) =
        (if digitStr (natDec n) = true
         then some ("movie", String.mk (natDec n)) else none) := by
      have h1 : dropLitCI "tmdb:".data (synthId "movie" n).data =
          some ("movie:".data ++ natDec n) := by
        rw [show (synthId "movie" n).data =
            "tmdb:".data ++ ("movie:".data ++ natDec n) from rfl]
        exact dropLitCI_append _ _ (by decide)
      have h2 : dropLitCI "movie:".data ("movie:".data ++ natDec n) =
          some (natDec n) := dropLitCI_append _ _ (by decide)
      unfold matchTmdbMeta
      simp only [h1, h2]
      rfl
    have hmatch : matchTmdbMeta (synthId "movie" n) =
        some ("movie", String.mk (natDec n)) := by
      rw [hred, if_pos hdigits]
    refine ⟨rfl, hmatch, ?_⟩
    unfold decodeTmdbMeta
    rw [hmatch]
    simp [digitsToNat_natDec]
  · have hred : matchTmdbMeta (synthId "tv" n) =
        (if digitStr (natDec n) = true
         then some ("tv", String.mk (natDec n)) else none) := by
      have h1 : dropLitCI "tmdb:".data (synthId "tv" n).data =
          some ("tv:".data ++ natDec n) := by
        rw [show (synthId "tv" n).data =
            "tmdb:".data ++ ("tv:".data ++ natDec n) from rfl]
        exact dropLitCI_append _ _ (by decide)
      have hmv : dropLitCI "movie:".data ("tv:".data ++ natDec n) = none :=
        rfl
      have h2 : dropLitCI "tv:".data ("tv:".data ++ natDec n) =
          some (natDec n) := dropLitCI_append _ _ (by decide)
      unfold matchTmdbMeta
      simp only [h1, hmv, h2]
      rfl
    have hmatch : matchTmdbMeta (synthId "tv" n) =
        some ("tv", String.mk (natDec n)) := by
      rw [hred, if_pos hdigits]
    refine ⟨rfl, hmatch, ?_⟩
    unfold decodeTmdbMeta
    rw [hmatch]
    simp [digitsToNat_natDec]

/-- Witness for C6 at the native pair (tv, 42). -/
theorem c6_synthetic_roundtrip_witness :
    ("tv" = "movie" ∨ "tv" = "tv")
    ∧ (synthId "tv" 42 = "tmdb:" ++ "tv" ++ ":" ++ natStr 42
       ∧ matchTmdbMeta (synthId "tv" 42) = some ("tv", String.mk (natDec 42))
       ∧ decodeTmdbMeta (synthId "tv" 42) = some ("tv", 42)) :=
  ⟨Or.inr rfl, c6_synthetic_roundtrip "tv" 42 (Or.inr rfl)⟩
